import Mathlib

/-!
singlefile `json.h`: a shallow embedding of the recursive-descent JSON parser

Modelling conventions.

* A C `char` is a `Nat` (its byte value).  A `char const *` is the list of bytes
  from the pointed-to position to the end of the buffer, terminator included:
  `str + k` is `str.drop k`, `*str` is the head.  Dereferencing the empty list is
  a read past the end of the buffer and yields `Fault.outOfBounds`.
* An `int` result is an `Int`; inputs are assumed shorter than `2^31` bytes, so
  no `int` arithmetic wraps.
* An out-parameter `struct json_node *ret` is threaded as `Option json_node`:
  `none` is storage that has never been written (a fresh allocation or an
  uninitialised local), `some v` is storage holding `v`.
* Allocations (`calloc`, `realloc`, `JSON_REALLOC`) are assumed to succeed; the
  heap is not modelled beyond the values it holds.
* The mutually recursive productions take a fuel argument that bounds the depth
  of calls; `Fault.fuel` is reported when it runs out.  The loop of the string
  parser is bounded by the length of its input, which it never uses up
  (`_json_parse_str_never_out_of_fuel`).
-/

namespace SingleFile

/-- Ways in which an execution leaves the defined behaviour of the C program
(or, for `fuel`, the part of it explored by the model). -/
inductive Fault
  | outOfBounds
  | indeterminate
  | fuel
  deriving DecidableEq, Repr

/-- Value stored by the `%lf` conversion: the number denoted by the matched
text.  The rounding of that number to a binary64 `double` is not modelled. -/
inductive scanned
  | dec (neg : Bool) (mant : Nat) (exp10 : Int)
  | hex (neg : Bool) (mant : Nat) (exp2 : Int)
  | inf (neg : Bool)
  | nan (neg : Bool)
  deriving DecidableEq, Repr

/-- The tagged node `struct json_node`.  The linked lists
`struct json_array_node` and `struct json_object_node` are lists, in link
order; a `NULL` head is the empty list. -/
inductive json_node
  | object (members : List (List Nat × json_node))
  | array (elems : List json_node)
  | string (bytes : List Nat)
  | number (value : scanned)
  | boolean (b : Int)
  | null
  deriving Repr

/-- Bytes of an ASCII text. -/
def bytes (s : String) : List Nat := s.toList.map Char.toNat

/-- The buffer holding the NUL-terminated C string with the given text. -/
def cstr (s : String) : List Nat := bytes s ++ [0]

/-- `isspace` in the "C" locale. -/
def isspace (c : Nat) : Bool := c == 32 || (9 ≤ c && c ≤ 13)

/-- `isdigit`. -/
def isdigit (c : Nat) : Bool := 48 ≤ c && c ≤ 57

/-- `isxdigit`. -/
def isxdigit (c : Nat) : Bool :=
  isdigit c || (97 ≤ c && c ≤ 102) || (65 ≤ c && c ≤ 70)

/-- Value of a hexadecimal digit (also used for decimal digits). -/
def digit_val (c : Nat) : Nat :=
  if isdigit c then c - 48
  else if 97 ≤ c && c ≤ 102 then c - 87
  else c - 55

/-- `strtol(hex, NULL, 16)` on a buffer holding two hexadecimal digits and a
terminator. -/
def strtol16 (h1 h2 : Nat) : Nat := digit_val h1 * 16 + digit_val h2

/-- `while (isspace(*str)) str++;`: the number of bytes skipped and the new
`str`. -/
def skip_space : List Nat → Except Fault (Nat × List Nat)
  | [] => .error .outOfBounds
  | c :: rest =>
    if isspace c then
      match skip_space rest with
      | .ok (k, r) => .ok (k + 1, r)
      | .error e => .error e
    else .ok (0, c :: rest)

/-- The `while (1)` loop of `_json_parse_str`.  `off` is `str - start`, `buf`
the bytes written through `cur` so far, `newlen` the counter of the source.
The result is the returned `int` and, when the loop is left through `break`,
the buffer.  The first argument bounds the number of iterations; every iteration
advances `str`, so the length of the buffer plus one is never used up. -/
def _json_parse_str_loop :
    Nat → List Nat → Nat → List Nat → Nat → Except Fault (Int × Option (List Nat))
  | 0, _, _, _, _ => .error .fuel
  | _ + 1, [], _, _, _ => .error .outOfBounds
  | fuel + 1, c0 :: rest, off, buf, newlen =>
    if c0 = 92 then
      -- `switch (*++str)`: `str` now points at the escape character
      match rest with
      | [] => .error .outOfBounds
      | e :: rest2 =>
        if e = 34 ∨ e = 92 ∨ e = 47 then
          _json_parse_str_loop fuel (e :: rest2) (off + 1) (buf ++ [e]) (newlen + 1)
        else if e = 98 then
          _json_parse_str_loop fuel (e :: rest2) (off + 1) (buf ++ [8]) (newlen + 1)
        else if e = 102 then
          _json_parse_str_loop fuel (e :: rest2) (off + 1) (buf ++ [12]) (newlen + 1)
        else if e = 110 then
          _json_parse_str_loop fuel (e :: rest2) (off + 1) (buf ++ [10]) (newlen + 1)
        else if e = 114 then
          _json_parse_str_loop fuel (e :: rest2) (off + 1) (buf ++ [13]) (newlen + 1)
        else if e = 116 then
          _json_parse_str_loop fuel (e :: rest2) (off + 1) (buf ++ [9]) (newlen + 1)
        else if e = 117 then
          match rest2 with
          | [] => .error .outOfBounds
          | h1 :: rest3 =>
            if !isxdigit h1 then .ok (-((off + 2 : Nat) : Int), none) else
            match rest3 with
            | [] => .error .outOfBounds
            | h2 :: rest4 =>
              if !isxdigit h2 then .ok (-((off + 3 : Nat) : Int), none) else
              match rest4 with
              | [] => .error .outOfBounds
              | h3 :: rest5 =>
                if !isxdigit h3 then .ok (-((off + 4 : Nat) : Int), none) else
                match rest5 with
                | [] => .error .outOfBounds
                | h4 :: rest6 =>
                  if !isxdigit h4 then .ok (-((off + 5 : Nat) : Int), none) else
                  -- `break` leaves `str` on the fourth digit and `c` zero
                  _json_parse_str_loop fuel (h4 :: rest6) (off + 5)
                    (buf ++ [strtol16 h1 h2 % 256, strtol16 h3 h4 % 256]) (newlen + 2)
        else .ok (-(newlen : Int), none)
    else if c0 = 34 then .ok (((off + 1 : Nat) : Int), some buf)
    else if c0 ≠ 0 then _json_parse_str_loop fuel rest (off + 1) (buf ++ [c0]) (newlen + 1)
    else _json_parse_str_loop fuel rest (off + 1) buf newlen

/-- `int _json_parse_str(struct json_node *ret, char const *str)`: the returned
`int` and the final content of `*ret`. -/
def _json_parse_str (ret : Option json_node) (str : List Nat) :
    Except Fault (Int × Option json_node) :=
  match str with
  | [] => .error .outOfBounds
  | c :: rest =>
    if c ≠ 34 then .ok (0, ret)
    else
      match _json_parse_str_loop (rest.length + 1) rest 1 [] 0 with
      | .error e => .error e
      | .ok (r, none) => .ok (r, ret)
      | .ok (r, some buf) => .ok (r, some (.string buf))

/-- `!strncmp(str, kw, n)` for a keyword `kw` of `n` non-NUL bytes: the
comparison stops at the first difference. -/
def strncmp_eq : List Nat → List Nat → Except Fault Bool
  | _, [] => .ok true
  | [], _ :: _ => .error .outOfBounds
  | c :: s, k :: ks => if c = k then strncmp_eq s ks else .ok false

/-- `int _json_parse_lit(struct json_node *ret, char const *str)`. -/
def _json_parse_lit (ret : Option json_node) (str : List Nat) :
    Except Fault (Int × Option json_node) :=
  match strncmp_eq str (bytes "true") with
  | .error e => .error e
  | .ok true => .ok (4, some (.boolean 1))
  | .ok false =>
    match strncmp_eq str (bytes "false") with
    | .error e => .error e
    | .ok true => .ok (5, some (.boolean 0))
    | .ok false =>
      match strncmp_eq str (bytes "null") with
      | .error e => .error e
      | .ok true => .ok (4, some .null)
      | .ok false => .ok (0, ret)

/-! ### The C library's `sscanf(str, "%lf %n", &value, &len)`

Modelled after ISO C 7.21.6.2 (`fscanf`) and 7.22.1.3 (`strtod`), "C" locale:
the input item of `%lf` is the longest sequence of characters that is, or is a
prefix of, a subject sequence of `strtod`; an item that is not itself a subject
sequence is a matching failure. -/

/-- Content of the C string at `str`: the bytes before the first NUL. -/
def c_string : List Nat → Except Fault (List Nat)
  | [] => .error .outOfBounds
  | c :: rest =>
    if c = 0 then .ok []
    else
      match c_string rest with
      | .ok s => .ok (c :: s)
      | .error e => .error e

/-- `tolower` on ASCII. -/
def tolower (c : Nat) : Nat := if 65 ≤ c ∧ c ≤ 90 then c + 32 else c

/-- Optional sign: whether it is `-`, how many bytes it takes, and the rest. -/
def scan_sign : List Nat → Bool × Nat × List Nat
  | [] => (false, 0, [])
  | c :: r =>
    if c = 45 then (true, 1, r) else if c = 43 then (false, 1, r) else (false, 0, c :: r)

/-- Value of a digit string in the given base. -/
def digits_val (base : Nat) (ds : List Nat) : Nat :=
  ds.foldl (fun a d => a * base + digit_val d) 0

/-- Digits with an optional radix point: integer digits, fraction digits and
the number of bytes taken. -/
def scan_mantissa (isd : Nat → Bool) (s : List Nat) : List Nat × List Nat × Nat :=
  let ip := s.takeWhile isd
  match s.drop ip.length with
  | [] => (ip, [], ip.length)
  | c :: r =>
    if c = 46 then
      let fp := r.takeWhile isd
      (ip, fp, ip.length + 1 + fp.length)
    else (ip, [], ip.length)

/-- Optional exponent part introduced by `marker` (`e` or `p`, either case):
its value and length, `some (0, 0)` when absent, `none` when it is begun and
has no digit. -/
def scan_exponent (marker : Nat) : List Nat → Option (Int × Nat)
  | [] => some (0, 0)
  | c :: r =>
    if tolower c = marker then
      match scan_sign r with
      | (neg, k, r1) =>
        let ds := r1.takeWhile isdigit
        if ds.isEmpty then none
        else some (if neg then -(digits_val 10 ds : Int) else (digits_val 10 ds : Int),
                   1 + k + ds.length)
    else some (0, 0)

/-- Length of the longest prefix of the lower-case keyword `kw` found at the
head of `s`, case ignored. -/
def scan_keyword : List Nat → List Nat → Nat
  | k :: ks, c :: r => if tolower c = k then scan_keyword ks r + 1 else 0
  | _, _ => 0

/-- Characters allowed in the `n-char-sequence` of `nan(...)`. -/
def isnchar (c : Nat) : Bool :=
  isdigit c || (97 ≤ c && c ≤ 122) || (65 ≤ c && c ≤ 90) || c == 95

/-- Decimal floating constant after the sign. -/
def scan_decimal (neg : Bool) (r : List Nat) : Option (scanned × Nat) :=
  match scan_mantissa isdigit r with
  | (ip, fp, km) =>
    if ip.isEmpty && fp.isEmpty then none
    else
      match scan_exponent 101 (r.drop km) with
      | none => none
      | some (e, ke) => some (.dec neg (digits_val 10 (ip ++ fp)) (e - fp.length), km + ke)

/-- Hexadecimal floating constant after the sign and the `0x`. -/
def scan_hex (neg : Bool) (r : List Nat) : Option (scanned × Nat) :=
  match scan_mantissa isxdigit r with
  | (ip, fp, km) =>
    if ip.isEmpty && fp.isEmpty then none
    else
      match scan_exponent 112 (r.drop km) with
      | none => none
      | some (e, ke) =>
        some (.hex neg (digits_val 16 (ip ++ fp)) (e - 4 * fp.length), 2 + km + ke)

/-- The `%lf` conversion on a non-empty input without leading white space: the
value and the length of the input item, `none` on a matching failure. -/
def scan_double (s : List Nat) : Option (scanned × Nat) :=
  match scan_sign s with
  | (neg, k0, r) =>
    let ki := scan_keyword (bytes "infinity") r
    let kn := scan_keyword (bytes "nan") r
    let body : Option (scanned × Nat) :=
      if ki ≠ 0 then (if ki = 3 ∨ ki = 8 then some (.inf neg, ki) else none)
      else if kn ≠ 0 then
        (if kn = 3 then
          match r.drop 3 with
          | [] => some (.nan neg, 3)
          | c :: r1 =>
            if c = 40 then
              let cs := r1.takeWhile isnchar
              match r1.drop cs.length with
              | [] => none
              | d :: _ => if d = 41 then some (.nan neg, 3 + 1 + cs.length + 1) else none
            else some (.nan neg, 3)
        else none)
      else
        match r with
        | z :: x :: r1 =>
          if z = 48 ∧ tolower x = 120 then scan_hex neg r1 else scan_decimal neg r
        | _ => scan_decimal neg r
    match body with
    | none => none
    | some (v, k) => some (v, k0 + k)

/-- `sscanf(str, "%lf %n", &value, &len)`: the returned count (`-1` is `EOF`)
and the values stored into `value` and `len`, when they are stored. -/
def sscanf_lf_n (str : List Nat) : Except Fault (Int × Option (scanned × Nat)) :=
  match c_string str with
  | .error e => .error e
  | .ok s =>
    let s1 := s.dropWhile isspace
    let w := s.length - s1.length
    if s1.isEmpty then .ok (-1, none)
    else
      match scan_double s1 with
      | none => .ok (0, none)
      | some (value, k) =>
        let w2 := ((s1.drop k).takeWhile isspace).length
        .ok (1, some (value, w + k + w2))

/-- `int _json_parse_num(struct json_node *ret, char const *str)`.  When
`sscanf` returns `EOF` the source negates `len`, which was never stored. -/
def _json_parse_num (ret : Option json_node) (str : List Nat) :
    Except Fault (Int × Option json_node) :=
  match sscanf_lf_n str with
  | .error e => .error e
  | .ok (ok, stored) =>
    if ok = 1 then
      match stored with
      | some (value, len) => .ok ((len : Int), some (.number value))
      | none => .error .indeterminate
    else if ok ≠ 0 then
      match stored with
      | some (_, len) => .ok (-(len : Int), ret)
      | none => .error .indeterminate
    else .ok (0, ret)

mutual

/-- `int _json_parse_value(struct json_node *ret, char const *str)`. -/
def _json_parse_value :
    Nat → Option json_node → List Nat → Except Fault (Int × Option json_node)
  | 0, _, _ => .error .fuel
  | fuel + 1, ret, start =>
    match skip_space start with
    | .error e => .error e
    | .ok (w, str) =>
      match _json_parse_lit ret str with
      | .error e => .error e
      | .ok (len, ret) =>
        if len > 0 then .ok ((w : Int) + len, ret) else
        match _json_parse_str ret str with
        | .error e => .error e
        | .ok (len, ret) =>
          if len > 0 then .ok ((w : Int) + len, ret) else
          match _json_parse_num ret str with
          | .error e => .error e
          | .ok (len, ret) =>
            if len > 0 then .ok ((w : Int) + len, ret) else
            match _json_parse_array fuel ret str with
            | .error e => .error e
            | .ok (len, ret) =>
              if len > 0 then .ok ((w : Int) + len, ret) else
              match _json_parse_object fuel ret str with
              | .error e => .error e
              | .ok (len, ret) =>
                if len > 0 then .ok ((w : Int) + len, ret)
                else .ok (-(w : Int) + len, ret)

/-- `int _json_parse_array(struct json_node *ret, char const *str)`. -/
def _json_parse_array :
    Nat → Option json_node → List Nat → Except Fault (Int × Option json_node)
  | _, _, [] => .error .outOfBounds
  | fuel, ret, c :: str0 =>
    if c ≠ 91 then .ok (0, ret) else
    match skip_space str0 with
    | .error e => .error e
    | .ok (w, str) =>
      match fuel with
      | 0 => .error .fuel
      | fuel + 1 =>
        match _json_parse_array_loop fuel [] (1 + w) str with
        | .error e => .error e
        | .ok (r, none) => .ok (r, ret)
        | .ok (r, some arr) => .ok (r, some (.array arr))

/-- The `while (1)` loop of `_json_parse_array`: `arr` is the list linked so
far, `off` is `str - start`.  The result is the returned `int` and, when the
loop is left through `break`, the list. -/
def _json_parse_array_loop :
    Nat → List json_node → Nat → List Nat → Except Fault (Int × Option (List json_node))
  | 0, _, _, _ => .error .fuel
  | fuel + 1, arr, off, str =>
    match _json_parse_value fuel none str with
    | .error e => .error e
    | .ok (pv, n) =>
      if pv > 0 then
        match n with
        | none => .error .indeterminate
        | some v =>
          match skip_space (str.drop pv.toNat) with
          | .error e => .error e
          | .ok (_, []) => .error .outOfBounds
          | .ok (w, c :: str1) =>
            if c = 44 then
              _json_parse_array_loop fuel (arr ++ [v]) (off + pv.toNat + w + 1) str1
            else if c = 93 then
              .ok (((off + pv.toNat + w + 1 : Nat) : Int), some (arr ++ [v]))
            else .ok (-((off + pv.toNat + w : Nat) : Int), none)
      else
        match skip_space str with
        | .error e => .error e
        | .ok (_, []) => .error .outOfBounds
        | .ok (w, c :: _) =>
          if c = 93 then .ok (((off + w + 1 : Nat) : Int), some arr)
          else .ok (-((off + w : Nat) : Int), none)

/-- `int _json_parse_object(struct json_node *ret, char const *str)`. -/
def _json_parse_object :
    Nat → Option json_node → List Nat → Except Fault (Int × Option json_node)
  | _, _, [] => .error .outOfBounds
  | fuel, ret, c :: str =>
    if c ≠ 123 then .ok (0, ret) else
    match fuel with
    | 0 => .error .fuel
    | fuel + 1 =>
      match _json_parse_object_loop fuel [] 1 str with
      | .error e => .error e
      | .ok (r, none) => .ok (r, ret)
      | .ok (r, some obj) => .ok (r, some (.object obj))

/-- The `while (1)` loop of `_json_parse_object`: `obj` is the list linked so
far, `off` is `str - start`. -/
def _json_parse_object_loop :
    Nat → List (List Nat × json_node) → Nat → List Nat →
      Except Fault (Int × Option (List (List Nat × json_node)))
  | 0, _, _, _ => .error .fuel
  | fuel + 1, obj, off, str =>
    match skip_space str with
    | .error e => .error e
    | .ok (w1, s1) =>
      match _json_parse_str none s1 with
      | .error e => .error e
      | .ok (pk, kn) =>
        if pk > 0 then
          match skip_space (s1.drop pk.toNat) with
          | .error e => .error e
          | .ok (_, []) => .error .outOfBounds
          | .ok (w2, c :: s2) =>
            if c ≠ 58 then .ok (-((off + w1 + pk.toNat + w2 : Nat) : Int), none) else
            match skip_space s2 with
            | .error e => .error e
            | .ok (w3, s3) =>
              match _json_parse_value fuel none s3 with
              | .error e => .error e
              | .ok (pv, vn) =>
                if pv ≤ 0 then
                  .ok (-((off + w1 + pk.toNat + w2 + 1 + w3 : Nat) : Int) + pv, none)
                else
                  match kn, vn with
                  | some (.string key), some v =>
                    match skip_space (s3.drop pv.toNat) with
                    | .error e => .error e
                    | .ok (_, []) => .error .outOfBounds
                    | .ok (w4, d :: s4) =>
                      if d = 44 then
                        _json_parse_object_loop fuel (obj ++ [(key, v)])
                          (off + w1 + pk.toNat + w2 + 1 + w3 + pv.toNat + w4 + 1) s4
                      else if d = 125 then
                        .ok (((off + w1 + pk.toNat + w2 + 1 + w3 + pv.toNat + w4 + 1 : Nat) : Int),
                             some (obj ++ [(key, v)]))
                      else
                        .ok (-((off + w1 + pk.toNat + w2 + 1 + w3 + pv.toNat + w4 : Nat) : Int),
                             none)
                  | _, _ => .error .indeterminate
        else
          match skip_space s1 with
          | .error e => .error e
          | .ok (_, []) => .error .outOfBounds
          | .ok (w, c :: _) =>
            if c = 125 then .ok (((off + w1 + w + 1 : Nat) : Int), some obj)
            else .ok (-((off + w1 + w : Nat) : Int), none)

end

/-- `struct json_node *json_parse_str(char const *str)`: `none` is `NULL`,
`some ret` a pointer to the root whose content is `ret` (`some none`: a root
that was never written). -/
def json_parse_str (fuel : Nat) (str : List Nat) :
    Except Fault (Option (Option json_node)) :=
  match _json_parse_value fuel none str with
  | .error e => .error e
  | .ok (r, ret) => if r < 0 then .ok none else .ok (some ret)


/-! ### Texts used to state the claims -/

theorem isxdigit_not_special (c : Nat) (h : isxdigit c = true) :
    c ≠ 92 ∧ c ≠ 34 ∧ c ≠ 0 := by
  simp only [isxdigit, isdigit, Bool.or_eq_true, Bool.and_eq_true, decide_eq_true_eq] at h
  omega

/-- An unterminated body without quote or backslash drives the string loop
past the terminator. -/
theorem str_loop_runs_off_the_end (body : List Nat)
    (hb : ∀ c ∈ body, c ≠ 34 ∧ c ≠ 92) (fuel off : Nat) (buf : List Nat) (newlen : Nat) :
    _json_parse_str_loop (fuel + (body.length + 2)) (body ++ [0]) off buf newlen
      = .error .outOfBounds := by
  induction body generalizing off buf newlen with
  | nil =>
    rw [_json_parse_str_loop.eq_def]
    simp [_json_parse_str_loop]
  | cons c body ih =>
    have hc := hb c (List.mem_cons_self c body)
    have ih2 := fun o b k => ih (fun d hd => hb d (List.mem_cons_of_mem c hd)) o b k
    have e : fuel + ((c :: body).length + 2) = (fuel + (body.length + 2)) + 1 := by
      simp only [List.length_cons]; omega
    rw [e, List.cons_append, _json_parse_str_loop.eq_def]
    by_cases h0 : c = 0
    · simp [h0, ih2]
    · simp [hc.1, hc.2, h0, ih2]

/-- The bound on the iterations of the string loop is never used up: a loop
started with more fuel than bytes ends by `return`, `break` or a read past the
buffer. -/
theorem str_loop_fuel_suffices (fuel : Nat) :
    ∀ (str : List Nat) (off : Nat) (buf : List Nat) (newlen : Nat), str.length < fuel →
      _json_parse_str_loop fuel str off buf newlen ≠ .error .fuel := by
  induction fuel with
  | zero => intro str _ _ _ h; simp at h
  | succ fuel ih =>
    intro str off buf newlen h
    rw [_json_parse_str_loop.eq_def]
    cases str with
    | nil => simp
    | cons c0 rest =>
      simp only [List.length_cons] at h
      have hr : ∀ o b k, _json_parse_str_loop fuel rest o b k ≠ .error .fuel :=
        fun o b k => ih rest o b k (by omega)
      dsimp only
      by_cases h92 : c0 = 92
      · rw [if_pos h92]
        rcases rest with _ | ⟨e, rest2⟩
        · exact fun hc => by cases hc
        dsimp only
        by_cases e0 : e = 34 ∨ e = 92 ∨ e = 47
        · rw [if_pos e0]
          exact hr _ _ _
        rw [if_neg e0]
        by_cases e1 : e = 98
        · rw [if_pos e1]
          exact hr _ _ _
        rw [if_neg e1]
        by_cases e2 : e = 102
        · rw [if_pos e2]
          exact hr _ _ _
        rw [if_neg e2]
        by_cases e3 : e = 110
        · rw [if_pos e3]
          exact hr _ _ _
        rw [if_neg e3]
        by_cases e4 : e = 114
        · rw [if_pos e4]
          exact hr _ _ _
        rw [if_neg e4]
        by_cases e5 : e = 116
        · rw [if_pos e5]
          exact hr _ _ _
        rw [if_neg e5]
        by_cases e7 : e = 117
        swap
        · rw [if_neg e7]
          exact fun hc => by cases hc
        rw [if_pos e7]
        simp only [List.length_cons] at h
        have hr2 : ∀ s o b k, s.length ≤ rest2.length →
            _json_parse_str_loop fuel s o b k ≠ .error .fuel :=
          fun s o b k hs => ih s o b k (by omega)
        rcases rest2 with _ | ⟨h1, rest3⟩
        · exact fun hc => by cases hc
        dsimp only
        by_cases x0 : (!isxdigit h1) = true
        · rw [if_pos x0]
          exact fun hc => by cases hc
        rw [if_neg x0]
        rcases rest3 with _ | ⟨h2, rest4⟩
        · exact fun hc => by cases hc
        dsimp only
        by_cases x1 : (!isxdigit h2) = true
        · rw [if_pos x1]
          exact fun hc => by cases hc
        rw [if_neg x1]
        rcases rest4 with _ | ⟨h3, rest5⟩
        · exact fun hc => by cases hc
        dsimp only
        by_cases x2 : (!isxdigit h3) = true
        · rw [if_pos x2]
          exact fun hc => by cases hc
        rw [if_neg x2]
        rcases rest5 with _ | ⟨h4, rest6⟩
        · exact fun hc => by cases hc
        dsimp only
        by_cases x3 : (!isxdigit h4) = true
        · rw [if_pos x3]
          exact fun hc => by cases hc
        rw [if_neg x3]
        apply hr2
        simp only [List.length_cons]
        omega
      · rw [if_neg h92]
        by_cases h34 : c0 = 34
        · rw [if_pos h34]
          exact fun hc => by cases hc
        rw [if_neg h34]
        by_cases h0 : c0 ≠ 0
        · rw [if_pos h0]
          exact hr _ _ _
        · rw [if_neg h0]
          exact hr _ _ _

/-- The string parser never reports `Fault.fuel`. -/
theorem _json_parse_str_never_out_of_fuel (ret : Option json_node) (str : List Nat) :
    _json_parse_str ret str ≠ .error .fuel := by
  unfold _json_parse_str
  cases str with
  | nil => simp
  | cons c rest =>
    have h := str_loop_fuel_suffices (rest.length + 1) rest 1 [] 0 (Nat.lt_succ_self _)
    simp only []
    split
    · simp
    · split
      · rename_i e he
        intro h2
        rw [Except.error.injEq] at h2
        rw [h2] at he
        exact h he
      · simp
      · simp

/-! ## Claims -/

/-- C1 (code defect): on `abc` and on `[1 2]` the value dispatcher returns 0,
and `json_parse_str` then returns a non-NULL root that was never written,
instead of signalling failure. -/
theorem C1_no_match_returns_unwritten_root (n : Nat) :
    _json_parse_value (n + 2) none (cstr "abc") = .ok (0, none) ∧
    json_parse_str (n + 2) (cstr "abc") = .ok (some none) ∧
    _json_parse_value (n + 4) none (cstr "[1 2]") = .ok (0, none) ∧
    json_parse_str (n + 4) (cstr "[1 2]") = .ok (some none) :=
  ⟨by rfl, by rfl, by rfl, by rfl⟩

/-- C2 (code defect): after a simple escape the string parser leaves `str` on
the escape character and reads it again.  On quote, backslash, X, quote it
yields two bytes for X among `/ b f n r t` (the decoded byte, then X itself),
for a backslash it takes the closing quote as a second escape, and for a quote
it stops after three characters; `"\n"` decodes to the bytes 0x0A 0x6E. -/
theorem C2_simple_escape_rereads_escape_char (ret : Option json_node) :
    _json_parse_str ret (cstr "\"\\n\"") = .ok (4, some (.string [10, 110])) ∧
    _json_parse_str ret (cstr "\"\\b\"") = .ok (4, some (.string [8, 98])) ∧
    _json_parse_str ret (cstr "\"\\f\"") = .ok (4, some (.string [12, 102])) ∧
    _json_parse_str ret (cstr "\"\\r\"") = .ok (4, some (.string [13, 114])) ∧
    _json_parse_str ret (cstr "\"\\t\"") = .ok (4, some (.string [9, 116])) ∧
    _json_parse_str ret (cstr "\"\\/\"") = .ok (4, some (.string [47, 47])) ∧
    _json_parse_str ret (cstr "\"\\\\\"") = .ok (4, some (.string [92, 34])) ∧
    _json_parse_str ret (cstr "\"\\\"\"") = .ok (3, some (.string [34])) :=
  ⟨rfl, rfl, rfl, rfl, rfl, rfl, rfl, rfl⟩

/-- C3 (code defect): for all hexadecimal digits h1 h2 h3 h4 the string parser
on quote, backslash, `u`, h1 h2 h3 h4, quote emits three bytes, the value of
h1h2, the value of h3h4 and then the digit h4 itself, which it reads again as
an ordinary character. -/
theorem C3_unicode_escape_emits_three_bytes (ret : Option json_node)
    (h1 h2 h3 h4 : Nat) (x1 : isxdigit h1 = true) (x2 : isxdigit h2 = true)
    (x3 : isxdigit h3 = true) (x4 : isxdigit h4 = true) :
    _json_parse_str ret [34, 92, 117, h1, h2, h3, h4, 34, 0] =
      .ok (8, some (.string [strtol16 h1 h2 % 256, strtol16 h3 h4 % 256, h4])) := by
  obtain ⟨a, b, c⟩ := isxdigit_not_special h4 x4
  simp [_json_parse_str, _json_parse_str_loop, x1, x2, x3, x4, a, b, c]

/-- Instance of C3 at `"\u0041"`: the decoded bytes are 0x00 0x41 0x31. -/
theorem C3_unicode_escape_emits_three_bytes_witness :
    cstr "\"\\u0041\"" = [34, 92, 117, 48, 48, 52, 49, 34, 0] ∧
    _json_parse_str none [34, 92, 117, 48, 48, 52, 49, 34, 0] =
      .ok (8, some (.string [0, 65, 49])) :=
  ⟨rfl, C3_unicode_escape_emits_three_bytes none 48 48 52 49 rfl rfl rfl rfl⟩

/-- Counterexample to C5: `123 abc` is accepted and yields Number(123). -/
theorem C5_trailing_text_accepted :
    json_parse_str 8 (cstr "123 abc") = .ok (some (some (.number (.dec false 123 0)))) ∧
    json_parse_str 8 (cstr "123 abc") ≠ .ok none := by
  have e : json_parse_str 8 (cstr "123 abc")
      = .ok (some (some (.number (.dec false 123 0)))) := by rfl
  refine ⟨e, ?_⟩
  rw [e]
  intro h
  cases h

/-- C5 (amended): `json_parse_str` never looks at what follows the value.
Whenever the dispatcher returns a positive length, the root holding the parsed
value is returned, however much of the input that length covers. -/
theorem C5_leading_value_is_returned (fuel : Nat) (str : List Nat) (r : Int)
    (ret : Option json_node) (hv : _json_parse_value fuel none str = .ok (r, ret))
    (hr : 0 < r) : json_parse_str fuel str = .ok (some ret) := by
  have h : ¬ r < 0 := by omega
  simp [json_parse_str, hv, h]

/-- Instance of the amended C5 at `123 abc`: the dispatcher consumes 4 of the 7
characters and the Number is returned. -/
theorem C5_leading_value_is_returned_witness :
    _json_parse_value 8 none (cstr "123 abc") = .ok (4, some (.number (.dec false 123 0))) ∧
    json_parse_str 8 (cstr "123 abc") = .ok (some (some (.number (.dec false 123 0)))) :=
  ⟨by rfl, C5_leading_value_is_returned 8 (cstr "123 abc") 4 _ (by rfl) (by decide)⟩

/-- C7 (code defect): a production's negative result does not stop the
dispatcher.  On `[1 2]` the array parser returns -3 and on `"a\q"` the string
parser returns -1; the dispatcher goes on to the later alternatives, keeps only
the object parser's 0 and returns 0, a no-match. -/
theorem C7_fatal_is_overwritten_by_later_alternatives (n : Nat) :
    _json_parse_array (n + 3) none (cstr "[1 2]") = .ok (-3, none) ∧
    _json_parse_value (n + 4) none (cstr "[1 2]") = .ok (0, none) ∧
    _json_parse_str none (cstr "\"a\\q\"") = .ok (-1, none) ∧
    _json_parse_value (n + 2) none (cstr "\"a\\q\"") = .ok (0, none) :=
  ⟨by rfl, by rfl, by rfl, by rfl⟩

/-- C8 (code defect): an unknown escape makes the string parser return
`-newlen`, the number of bytes decoded so far, negated.  When the escape comes
right after the opening quote that is 0, a no-match, whatever follows. -/
theorem C8_unknown_escape_first_is_no_match (ret : Option json_node) (e : Nat)
    (rest : List Nat) (he : e ∉ [34, 92, 47, 98, 102, 110, 114, 116, 117]) :
    _json_parse_str ret (34 :: 92 :: e :: rest) = .ok (0, ret) := by
  simp only [List.mem_cons, List.mem_singleton, List.not_mem_nil, not_or, or_false] at he
  obtain ⟨a1, a2, a3, a4, a5, a6, a7, a8, a9⟩ := he
  simp [_json_parse_str, _json_parse_str_loop, a1, a2, a3, a4, a5, a6, a7, a8, a9]

/-- Instance of C8 at `"\q"`: the string parser returns 0. -/
theorem C8_unknown_escape_first_is_no_match_witness :
    cstr "\"\\q\"" = 34 :: 92 :: 113 :: [34, 0] ∧
    _json_parse_str none (34 :: 92 :: 113 :: [34, 0]) = .ok (0, none) :=
  ⟨by rfl, C8_unknown_escape_first_is_no_match none 113 [34, 0] (by decide)⟩

/-- C9 (code defect): on an opening quote followed by a body without quote or
backslash and the terminator, the string parser steps over the terminator and
reads the byte after it. -/
theorem C9_unterminated_string_reads_past_terminator (ret : Option json_node)
    (body : List Nat) (hb : ∀ c ∈ body, c ≠ 34 ∧ c ≠ 92) :
    _json_parse_str ret (34 :: (body ++ [0])) = .error .outOfBounds := by
  have h := str_loop_runs_off_the_end body hb 0 1 [] 0
  simp only [Nat.zero_add] at h
  simp [_json_parse_str, h]

/-- Instance of C9 at `"abc`. -/
theorem C9_unterminated_string_reads_past_terminator_witness :
    cstr "\"abc" = 34 :: (bytes "abc" ++ [0]) ∧
    _json_parse_str none (34 :: (bytes "abc" ++ [0])) = .error .outOfBounds :=
  ⟨by rfl, C9_unterminated_string_reads_past_terminator none (bytes "abc") (by decide)⟩

/-- C10 (code defect): after the escape `\"` the string parser reads the quote
again and takes it for the closing quote.  On `"a\"b"` it returns 4, not 6,
with the decoded bytes `a`, `"`. -/
theorem C10_escaped_quote_ends_the_string (ret : Option json_node) :
    _json_parse_str ret (cstr "\"a\\\"b\"") = .ok (4, some (.string [97, 34])) := by
  rfl

theorem strncmp_eq_prefix (kw : List Nat) (hk : 0 ∉ kw) :
    ∀ str : List Nat, 0 ∈ str → strncmp_eq str kw = .ok (decide (kw <+: str)) := by
  induction kw with
  | nil => intro str _; cases str <;> simp [strncmp_eq]
  | cons k ks ih =>
    intro str h0
    have hk0 : k ≠ 0 := fun e => hk (by simp [e])
    have hks : 0 ∉ ks := fun e => hk (List.mem_cons_of_mem k e)
    cases str with
    | nil => simp at h0
    | cons c s =>
      by_cases hc : c = k
      · have hs : 0 ∈ s := by
          rcases List.mem_cons.1 h0 with e | e
          · exact absurd (hc ▸ e.symm) hk0
          · exact e
        simp [strncmp_eq, hc, ih hks s hs, List.cons_prefix_cons]
      · have : ¬ (k = c) := fun e => hc e.symm
        simp [strncmp_eq, hc, List.cons_prefix_cons, this]

theorem bytes_true : bytes "true" = [116, 114, 117, 101] := by rfl
theorem bytes_false : bytes "false" = [102, 97, 108, 115, 101] := by rfl
theorem bytes_null : bytes "null" = [110, 117, 108, 108] := by rfl

/-! ## Facts about the `sscanf` model -/

theorem c_string_eq : ∀ s : List Nat, 0 ∈ s →
    c_string s = .ok (s.takeWhile (fun c => c != 0)) := by
  intro s
  induction s with
  | nil => intro h; simp at h
  | cons c s ih =>
    intro h
    by_cases hc : c = 0
    · simp [c_string, hc]
    · have hs : 0 ∈ s := by
        rcases List.mem_cons.1 h with e | e
        · exact absurd e.symm hc
        · exact e
      simp [c_string, hc, ih hs]

theorem bytes_infinity : bytes "infinity" = [105, 110, 102, 105, 110, 105, 116, 121] := by rfl
theorem bytes_nan : bytes "nan" = [110, 97, 110] := by rfl

/-- A byte that cannot start a `strtod` subject sequence makes `%lf` fail. -/
theorem scan_double_no_start (c : Nat) (t : List Nat)
    (hs : c ≠ 45 ∧ c ≠ 43) (hd : isdigit c = false) (hp : c ≠ 46)
    (hi : tolower c ≠ 105) (hn : tolower c ≠ 110) :
    scan_double (c :: t) = none := by
  have h48 : c ≠ 48 := by
    intro e
    rw [e] at hd
    exact absurd hd (by decide)
  have hm : scan_decimal false (c :: t) = none := by
    simp [scan_decimal, scan_mantissa, hd, hp]
  cases t with
  | nil => simp [scan_double, scan_sign, hs.1, hs.2, bytes_infinity, bytes_nan, scan_keyword, hi, hn, hm]
  | cons x r =>
    simp [scan_double, scan_sign, hs.1, hs.2, bytes_infinity, bytes_nan, scan_keyword, hi, hn, hm, h48]

/-- The number parser reports no-match, and leaves the node, on every input
whose first byte cannot start a number. -/
theorem num_no_match (ret : Option json_node) (c : Nat) (tail : List Nat)
    (h0 : 0 ∈ tail) (hc0 : c ≠ 0) (hsp : isspace c = false)
    (hs : c ≠ 45 ∧ c ≠ 43) (hd : isdigit c = false) (hp : c ≠ 46)
    (hi : tolower c ≠ 105) (hn : tolower c ≠ 110) :
    _json_parse_num ret (c :: tail) = .ok (0, ret) := by
  have hz : 0 ∈ c :: tail := List.mem_cons_of_mem c h0
  simp [_json_parse_num, sscanf_lf_n, c_string_eq _ hz, hc0, hsp,
    scan_double_no_start c _ hs hd hp hi hn]

theorem skip_space_append (w : List Nat) (hw : ∀ x ∈ w, isspace x = true) (c : Nat)
    (r : List Nat) (hc : isspace c = false) :
    skip_space (w ++ c :: r) = .ok (w.length, c :: r) := by
  induction w with
  | nil => simp [skip_space, hc]
  | cons x w ih =>
    have hx : isspace x = true := hw x (by simp)
    have ih2 := ih (fun y hy => hw y (List.mem_cons_of_mem x hy))
    simp [skip_space, hx, ih2]

theorem skip_space_none (c : Nat) (r : List Nat) (hc : isspace c = false) :
    skip_space (c :: r) = .ok (0, c :: r) :=
  skip_space_append [] (by simp) c r hc

/-- The dispatcher reports no-match, leaving the node, on every input whose
first byte begins none of the five productions. -/
theorem value_no_match (n : Nat) (ret : Option json_node) (c : Nat) (tail : List Nat)
    (h0 : 0 ∈ tail) (hc0 : c ≠ 0) (hsp : isspace c = false)
    (hs : c ≠ 45 ∧ c ≠ 43) (hd : isdigit c = false) (hp : c ≠ 46)
    (hi : tolower c ≠ 105) (hn : tolower c ≠ 110)
    (hl : c ≠ 116 ∧ c ≠ 102 ∧ c ≠ 110) (hq : c ≠ 34 ∧ c ≠ 91 ∧ c ≠ 123) :
    _json_parse_value (n + 1) ret (c :: tail) = .ok (0, ret) := by
  have hlit : _json_parse_lit ret (c :: tail) = .ok (0, ret) := by
    simp [_json_parse_lit, bytes_true, bytes_false, bytes_null, strncmp_eq, hl.1, hl.2.1, hl.2.2]
  have hstr : _json_parse_str ret (c :: tail) = .ok (0, ret) := by
    simp [_json_parse_str, hq.1]
  have hnum := num_no_match ret c tail h0 hc0 hsp hs hd hp hi hn
  have harr : _json_parse_array n ret (c :: tail) = .ok (0, ret) := by
    rw [_json_parse_array.eq_def]
    simp [hq.2.1]
  have hobj : _json_parse_object n ret (c :: tail) = .ok (0, ret) := by
    rw [_json_parse_object.eq_def]
    simp [hq.2.2]
  rw [_json_parse_value.eq_def]
  simp [skip_space_none c tail hsp, hlit, hstr, hnum, harr, hobj]

theorem value_no_match_rbracket (n : Nat) (ret : Option json_node) (tail : List Nat)
    (h0 : 0 ∈ tail) : _json_parse_value (n + 1) ret (93 :: tail) = .ok (0, ret) :=
  value_no_match n ret 93 tail h0 (by decide) (by decide) (by decide) (by decide) (by decide)
    (by decide) (by decide) (by decide) (by decide)

/-- The array parser on `[`, white space, `]`. -/
theorem array_empty (n : Nat) (ret : Option json_node) (w rest : List Nat)
    (hw : ∀ x ∈ w, isspace x = true) (h0 : 0 ∈ rest) :
    _json_parse_array (n + 3) ret (91 :: (w ++ 93 :: rest))
      = .ok (((2 + w.length : Nat) : Int), some (.array [])) := by
  have h93 : skip_space (w ++ 93 :: rest) = .ok (w.length, 93 :: rest) :=
    skip_space_append w hw 93 rest (by decide)
  have hloop : _json_parse_array_loop (n + 2) [] (1 + w.length) (93 :: rest)
      = .ok (((2 + w.length : Nat) : Int), some []) := by
    rw [_json_parse_array_loop.eq_def]
    simp [value_no_match_rbracket n none rest h0, skip_space_none 93 rest (by decide)]
    omega
  rw [_json_parse_array.eq_def]
  simp [h93, hloop]

/-- The object parser on `{`, white space, `}`. -/
theorem object_empty (n : Nat) (ret : Option json_node) (w rest : List Nat)
    (hw : ∀ x ∈ w, isspace x = true) :
    _json_parse_object (n + 2) ret (123 :: (w ++ 125 :: rest))
      = .ok (((2 + w.length : Nat) : Int), some (.object [])) := by
  have h125 : skip_space (w ++ 125 :: rest) = .ok (w.length, 125 :: rest) :=
    skip_space_append w hw 125 rest (by decide)
  have hloop : _json_parse_object_loop (n + 1) [] 1 (w ++ 125 :: rest)
      = .ok (((2 + w.length : Nat) : Int), some []) := by
    rw [_json_parse_object_loop.eq_def]
    simp [h125, _json_parse_str, skip_space_none 125 rest (by decide)]
    omega
  rw [_json_parse_object.eq_def]
  simp [hloop]

/-- Case analysis of one iteration of the string loop.  A property holds of the
result of an iteration when it holds of every fault, of every `return` (of a
value that is not positive), of the
`break` on a quote, and of every way the loop continues: on a shorter text, at
a larger offset, with no more bytes added to the buffer than the offset
advanced, and with `newlen` still the length of the buffer if it was. -/
theorem str_loop_cases (P : Except Fault (Int × Option (List Nat)) → Prop)
    (fuel c0 : Nat) (rest : List Nat) (off : Nat) (buf : List Nat) (newlen : Nat)
    (herr : ∀ e, P (.error e)) (hnone : ∀ r : Int, r ≤ 0 → P (.ok (r, none)))
    (hquote : c0 = 34 → P (.ok (((off + 1 : Nat) : Int), some buf)))
    (hrec : ∀ (s : List Nat) (o : Nat) (b : List Nat) (k : Nat),
      s.length ≤ rest.length → off < o → b.length + off ≤ o + buf.length →
      (newlen = buf.length → k = b.length) →
      P (_json_parse_str_loop fuel s o b k)) :
    P (_json_parse_str_loop (fuel + 1) (c0 :: rest) off buf newlen) := by
  rw [_json_parse_str_loop.eq_def]
  dsimp only
  by_cases h92 : c0 = 92
  · rw [if_pos h92]
    rcases rest with _ | ⟨e, rest2⟩
    · exact herr _
    dsimp only
    by_cases e0 : e = 34 ∨ e = 92 ∨ e = 47
    · rw [if_pos e0]
      exact hrec _ _ _ _ (by simp) (by omega) (by simp only [List.length_append, List.length_singleton]; omega) (by intro h; simp [h])
    rw [if_neg e0]
    by_cases e1 : e = 98
    · rw [if_pos e1]
      exact hrec _ _ _ _ (by simp) (by omega) (by simp only [List.length_append, List.length_singleton]; omega) (by intro h; simp [h])
    rw [if_neg e1]
    by_cases e2 : e = 102
    · rw [if_pos e2]
      exact hrec _ _ _ _ (by simp) (by omega) (by simp only [List.length_append, List.length_singleton]; omega) (by intro h; simp [h])
    rw [if_neg e2]
    by_cases e3 : e = 110
    · rw [if_pos e3]
      exact hrec _ _ _ _ (by simp) (by omega) (by simp only [List.length_append, List.length_singleton]; omega) (by intro h; simp [h])
    rw [if_neg e3]
    by_cases e4 : e = 114
    · rw [if_pos e4]
      exact hrec _ _ _ _ (by simp) (by omega) (by simp only [List.length_append, List.length_singleton]; omega) (by intro h; simp [h])
    rw [if_neg e4]
    by_cases e5 : e = 116
    · rw [if_pos e5]
      exact hrec _ _ _ _ (by simp) (by omega) (by simp only [List.length_append, List.length_singleton]; omega) (by intro h; simp [h])
    rw [if_neg e5]
    by_cases e7 : e = 117
    swap
    · rw [if_neg e7]
      exact hnone _ (by omega)
    rw [if_pos e7]
    rcases rest2 with _ | ⟨h1, rest3⟩
    · exact herr _
    dsimp only
    by_cases x0 : (!isxdigit h1) = true
    · rw [if_pos x0]
      exact hnone _ (by omega)
    rw [if_neg x0]
    rcases rest3 with _ | ⟨h2, rest4⟩
    · exact herr _
    dsimp only
    by_cases x1 : (!isxdigit h2) = true
    · rw [if_pos x1]
      exact hnone _ (by omega)
    rw [if_neg x1]
    rcases rest4 with _ | ⟨h3, rest5⟩
    · exact herr _
    dsimp only
    by_cases x2 : (!isxdigit h3) = true
    · rw [if_pos x2]
      exact hnone _ (by omega)
    rw [if_neg x2]
    rcases rest5 with _ | ⟨h4, rest6⟩
    · exact herr _
    dsimp only
    by_cases x3 : (!isxdigit h4) = true
    · rw [if_pos x3]
      exact hnone _ (by omega)
    rw [if_neg x3]
    exact hrec _ _ _ _ (by simp only [List.length_cons]; omega) (by omega)
      (by simp only [List.length_append, List.length_cons, List.length_nil]; omega)
      (by intro h; simp [h])
  · rw [if_neg h92]
    by_cases h34 : c0 = 34
    · rw [if_pos h34]
      exact hquote h34
    rw [if_neg h34]
    by_cases h0 : c0 ≠ 0
    · rw [if_pos h0]
      exact hrec _ _ _ _ (by simp) (by omega) (by simp only [List.length_append, List.length_singleton]; omega) (by intro h; simp [h])
    · rw [if_neg h0]
      exact hrec _ _ _ _ (by simp) (by omega) (by omega) (by intro h; exact h)

/-- When the string loop leaves through `break`, the returned length exceeds
the offset it started from, and the buffer has grown by less than the offset
has advanced. -/
theorem str_loop_inv (fuel : Nat) :
    ∀ (str : List Nat) (off : Nat) (buf : List Nat) (newlen : Nat) (r : Int) (b : List Nat),
      _json_parse_str_loop fuel str off buf newlen = .ok (r, some b) →
      (off : Int) < r ∧ (b.length : Int) + off + 1 ≤ r + buf.length := by
  induction fuel with
  | zero =>
    intro str off buf newlen r b h
    simp [_json_parse_str_loop] at h
  | succ fuel ih =>
    intro str off buf newlen r b
    cases str with
    | nil => intro h; simp [_json_parse_str_loop] at h
    | cons c0 rest =>
      refine str_loop_cases
        (fun res => res = .ok (r, some b) →
          (off : Int) < r ∧ (b.length : Int) + off + 1 ≤ r + buf.length)
        fuel c0 rest off buf newlen ?_ ?_ ?_ ?_
      · intro e h; cases h
      · intro x _ h
        simp at h
      · intro _ h
        simp only [Except.ok.injEq, Prod.mk.injEq, Option.some.injEq] at h
        obtain ⟨h1, h2⟩ := h
        subst h1 h2
        constructor
        · push_cast; omega
        · push_cast; omega
      · intro s o bb k _ ho hb _ h
        have := ih s o bb k r b h
        omega

/-- When the string loop leaves through `return`, the result is not positive. -/
theorem str_loop_return (fuel : Nat) :
    ∀ (str : List Nat) (off : Nat) (buf : List Nat) (newlen : Nat) (r : Int),
      _json_parse_str_loop fuel str off buf newlen = .ok (r, none) → r ≤ 0 := by
  induction fuel with
  | zero =>
    intro str off buf newlen r h
    simp [_json_parse_str_loop] at h
  | succ fuel ih =>
    intro str off buf newlen r
    cases str with
    | nil => intro h; simp [_json_parse_str_loop] at h
    | cons c0 rest =>
      refine str_loop_cases (fun res => res = .ok (r, none) → r ≤ 0)
        fuel c0 rest off buf newlen ?_ ?_ ?_ ?_
      · intro e h; cases h
      · intro x hx h
        simp only [Except.ok.injEq, Prod.mk.injEq, and_true] at h
        omega
      · intro _ h
        simp at h
      · intro s o bb k _ _ _ _ h
        exact ih s o bb k r h

/-! ## Atomicity of the output node -/

theorem lit_atomic (ret : Option json_node) (str : List Nat) (r : Int)
    (ret1 : Option json_node) (h : _json_parse_lit ret str = .ok (r, ret1)) (hr : r ≤ 0) :
    ret1 = ret := by
  unfold _json_parse_lit at h
  repeat' split at h
  all_goals simp only [Except.ok.injEq, Prod.mk.injEq, reduceCtorEq] at h
  all_goals first
    | exact h.2.symm
    | (obtain ⟨h1, -⟩ := h; omega)

theorem str_atomic (ret : Option json_node) (str : List Nat) (r : Int)
    (ret1 : Option json_node) (h : _json_parse_str ret str = .ok (r, ret1)) (hr : r ≤ 0) :
    ret1 = ret := by
  unfold _json_parse_str at h
  split at h
  · cases h
  · split at h
    · simp only [Except.ok.injEq, Prod.mk.injEq] at h
      exact h.2.symm
    · split at h
      · cases h
      · simp only [Except.ok.injEq, Prod.mk.injEq] at h
        exact h.2.symm
      · rename_i r0 buf hl
        simp only [Except.ok.injEq, Prod.mk.injEq] at h
        have := (str_loop_inv _ _ _ _ _ _ _ hl).1
        omega

theorem scan_mantissa_len (isd : Nat → Bool) (s ip fp : List Nat) (km : Nat)
    (h : scan_mantissa isd s = (ip, fp, km)) : ip.length + fp.length ≤ km := by
  unfold scan_mantissa at h
  dsimp only at h
  split at h
  · simp only [Prod.mk.injEq] at h
    obtain ⟨h1, h2, h3⟩ := h
    subst h1 h2 h3
    simp
  · split at h
    all_goals
      simp only [Prod.mk.injEq] at h
      obtain ⟨h1, h2, h3⟩ := h
      subst h1 h2 h3
      simp
      try omega

theorem scan_decimal_pos (neg : Bool) (r : List Nat) (v : scanned) (k : Nat)
    (h : scan_decimal neg r = some (v, k)) : 0 < k := by
  unfold scan_decimal at h
  split at h
  rename_i ip fp km hm
  have hl := scan_mantissa_len _ _ _ _ _ hm
  split at h
  · cases h
  · rename_i hne
    split at h
    · cases h
    · simp only [Option.some.injEq, Prod.mk.injEq] at h
      have : 0 < ip.length + fp.length := by
        rcases ip with _ | ⟨a, ip⟩
        · rcases fp with _ | ⟨b, fp⟩
          · simp at hne
          · simp
        · simp
      omega

theorem scan_hex_pos (neg : Bool) (r : List Nat) (v : scanned) (k : Nat)
    (h : scan_hex neg r = some (v, k)) : 0 < k := by
  unfold scan_hex at h
  split at h
  split at h
  · cases h
  · split at h
    · cases h
    · simp only [Option.some.injEq, Prod.mk.injEq] at h
      omega

/-- A successful `%lf` conversion takes at least one byte. -/
theorem scan_double_pos (s : List Nat) (v : scanned) (k : Nat)
    (h : scan_double s = some (v, k)) : 0 < k := by
  unfold scan_double at h
  split at h
  rename_i neg k0 r hs
  dsimp only at h
  split at h
  · cases h
  · rename_i v1 k1 hb
    simp only [Option.some.injEq, Prod.mk.injEq] at h
    have hk1 : 0 < k1 := by
      split at hb
      · split at hb
        · simp only [Option.some.injEq, Prod.mk.injEq] at hb
          omega
        · cases hb
      · split at hb
        · split at hb
          · split at hb
            · simp only [Option.some.injEq, Prod.mk.injEq] at hb
              omega
            · split at hb
              · split at hb
                · cases hb
                · split at hb
                  · simp only [Option.some.injEq, Prod.mk.injEq] at hb
                    omega
                  · cases hb
              · simp only [Option.some.injEq, Prod.mk.injEq] at hb
                omega
          · cases hb
        · split at hb
          · split at hb
            · exact scan_hex_pos _ _ _ _ hb
            · exact scan_decimal_pos _ _ _ _ hb
          · exact scan_decimal_pos _ _ _ _ hb
    omega

/-- When `sscanf` stores a value, it returns 1 and `%n` stores a positive
count. -/
theorem sscanf_stored (str : List Nat) (ok : Int) (value : scanned) (len : Nat)
    (h : sscanf_lf_n str = .ok (ok, some (value, len))) : ok = 1 ∧ 0 < len := by
  unfold sscanf_lf_n at h
  split at h
  · cases h
  · dsimp only at h
    split at h
    · simp at h
    · split at h
      · simp at h
      · rename_i v2 k2 hsd
        simp only [Except.ok.injEq, Prod.mk.injEq, Option.some.injEq] at h
        have := scan_double_pos _ _ _ hsd
        refine ⟨h.1.symm, ?_⟩
        omega

theorem num_atomic (ret : Option json_node) (str : List Nat) (r : Int)
    (ret1 : Option json_node) (h : _json_parse_num ret str = .ok (r, ret1)) (hr : r ≤ 0) :
    ret1 = ret := by
  unfold _json_parse_num at h
  split at h
  · cases h
  · rename_i ok stored hsc
    split at h
    · split at h
      · rename_i value len
        simp only [Except.ok.injEq, Prod.mk.injEq] at h
        have := (sscanf_stored _ _ _ _ hsc).2
        omega
      · cases h
    · rename_i hne1
      split at h
      · split at h
        · exact absurd (sscanf_stored _ _ _ _ hsc).1 hne1
        · cases h
      · simp only [Except.ok.injEq, Prod.mk.injEq] at h
        exact h.2.symm

/-- When the element loop leaves through `break`, the returned length exceeds
the offset it started from. -/
theorem array_loop_pos (fuel : Nat) :
    ∀ (arr : List json_node) (off : Nat) (str : List Nat) (r : Int) (a : List json_node),
      _json_parse_array_loop fuel arr off str = .ok (r, some a) → (off : Int) < r := by
  induction fuel with
  | zero =>
    intro arr off str r a h
    rw [_json_parse_array_loop.eq_def] at h
    cases h
  | succ fuel ih =>
    intro arr off str r a h
    rw [_json_parse_array_loop.eq_def] at h
    dsimp only at h
    split at h
    · cases h
    · split at h
      · split at h
        · cases h
        · split at h
          · cases h
          · cases h
          · split at h
            · have := ih _ _ _ _ _ h
              omega
            · split at h
              · simp only [Except.ok.injEq, Prod.mk.injEq] at h
                omega
              · simp at h
      · split at h
        · cases h
        · cases h
        · split at h
          · simp only [Except.ok.injEq, Prod.mk.injEq] at h
            omega
          · simp at h

/-- When the member loop leaves through `break`, the returned length exceeds
the offset it started from. -/
theorem object_loop_pos (fuel : Nat) :
    ∀ (obj : List (List Nat × json_node)) (off : Nat) (str : List Nat) (r : Int)
      (o : List (List Nat × json_node)),
      _json_parse_object_loop fuel obj off str = .ok (r, some o) → (off : Int) < r := by
  induction fuel with
  | zero =>
    intro obj off str r o h
    rw [_json_parse_object_loop.eq_def] at h
    cases h
  | succ fuel ih =>
    intro obj off str r o h
    rw [_json_parse_object_loop.eq_def] at h
    dsimp only at h
    split at h
    · cases h
    · split at h
      · cases h
      · split at h
        · split at h
          · cases h
          · cases h
          · split at h
            · simp at h
            · split at h
              · cases h
              · split at h
                · cases h
                · split at h
                  · simp at h
                  · split at h
                    · split at h
                      · cases h
                      · cases h
                      · split at h
                        · have := ih _ _ _ _ _ h
                          omega
                        · split at h
                          · simp only [Except.ok.injEq, Prod.mk.injEq] at h
                            omega
                          · simp at h
                    · cases h
        · split at h
          · cases h
          · cases h
          · split at h
            · simp only [Except.ok.injEq, Prod.mk.injEq] at h
              omega
            · simp at h

theorem array_atomic (fuel : Nat) (ret : Option json_node) (str : List Nat) (r : Int)
    (ret1 : Option json_node) (h : _json_parse_array fuel ret str = .ok (r, ret1))
    (hr : r ≤ 0) : ret1 = ret := by
  rw [_json_parse_array.eq_def] at h
  split at h
  · cases h
  · split at h
    · simp only [Except.ok.injEq, Prod.mk.injEq] at h
      exact h.2.symm
    · split at h
      · cases h
      · split at h
        · cases h
        · split at h
          · cases h
          · simp only [Except.ok.injEq, Prod.mk.injEq] at h
            exact h.2.symm
          · rename_i hl
            simp only [Except.ok.injEq, Prod.mk.injEq] at h
            have := array_loop_pos _ _ _ _ _ _ hl
            omega

theorem object_atomic (fuel : Nat) (ret : Option json_node) (str : List Nat) (r : Int)
    (ret1 : Option json_node) (h : _json_parse_object fuel ret str = .ok (r, ret1))
    (hr : r ≤ 0) : ret1 = ret := by
  rw [_json_parse_object.eq_def] at h
  split at h
  · cases h
  · split at h
    · simp only [Except.ok.injEq, Prod.mk.injEq] at h
      exact h.2.symm
    · split at h
      · cases h
      · split at h
        · cases h
        · simp only [Except.ok.injEq, Prod.mk.injEq] at h
          exact h.2.symm
        · rename_i hl
          simp only [Except.ok.injEq, Prod.mk.injEq] at h
          have := object_loop_pos _ _ _ _ _ _ hl
          omega

theorem value_atomic (fuel : Nat) (ret : Option json_node) (str : List Nat) (r : Int)
    (ret1 : Option json_node) (h : _json_parse_value fuel ret str = .ok (r, ret1))
    (hr : r ≤ 0) : ret1 = ret := by
  rw [_json_parse_value.eq_def] at h
  split at h
  · cases h
  · split at h
    · cases h
    · rename_i w str1 _
      split at h
      · cases h
      · rename_i l1 r1 h1
        split at h
        · simp only [Except.ok.injEq, Prod.mk.injEq] at h
          omega
        · have e1 := lit_atomic _ _ _ _ h1 (by omega)
          subst e1
          split at h
          · cases h
          · rename_i l2 r2 h2
            split at h
            · simp only [Except.ok.injEq, Prod.mk.injEq] at h
              omega
            · have e2 := str_atomic _ _ _ _ h2 (by omega)
              subst e2
              split at h
              · cases h
              · rename_i l3 r3 h3
                split at h
                · simp only [Except.ok.injEq, Prod.mk.injEq] at h
                  omega
                · have e3 := num_atomic _ _ _ _ h3 (by omega)
                  subst e3
                  split at h
                  · cases h
                  · rename_i l4 r4 h4
                    split at h
                    · simp only [Except.ok.injEq, Prod.mk.injEq] at h
                      omega
                    · have e4 := array_atomic _ _ _ _ _ h4 (by omega)
                      subst e4
                      split at h
                      · cases h
                      · rename_i l5 r5 h5
                        split at h
                        · simp only [Except.ok.injEq, Prod.mk.injEq] at h
                          omega
                        · have e5 := object_atomic _ _ _ _ _ h5 (by omega)
                          subst e5
                          simp only [Except.ok.injEq, Prod.mk.injEq] at h
                          exact h.2.symm

/-! ## A positive result comes with a written node -/

theorem str_written (ret : Option json_node) (str : List Nat) (n : Int)
    (ret1 : Option json_node) (h : _json_parse_str ret str = .ok (n, ret1)) (hn : 0 < n) :
    ∃ b : List Nat, ret1 = some (.string b) ∧ (b.length : Int) ≤ n - 2 := by
  unfold _json_parse_str at h
  split at h
  · cases h
  · split at h
    · simp only [Except.ok.injEq, Prod.mk.injEq] at h
      omega
    · split at h
      · cases h
      · rename_i r0 hl
        simp only [Except.ok.injEq, Prod.mk.injEq] at h
        have := str_loop_return _ _ _ _ _ _ hl
        omega
      · rename_i r0 buf hl
        simp only [Except.ok.injEq, Prod.mk.injEq] at h
        have := (str_loop_inv _ _ _ _ _ _ _ hl).2
        refine ⟨buf, h.2.symm, ?_⟩
        simp only [List.length_nil] at this
        omega

/-- C11: on every NUL-terminated input the literal parser returns 4 with
Boolean(true) when the input starts with `true`, 5 with Boolean(false) when it
starts with `false`, 4 with Null when it starts with `null`, and otherwise 0
with the output node as it was. -/
theorem C11_literal_keywords_matched (ret : Option json_node) (str : List Nat) (h0 : 0 ∈ str) :
    (bytes "true" <+: str → _json_parse_lit ret str = .ok (4, some (.boolean 1))) ∧
    (bytes "false" <+: str → _json_parse_lit ret str = .ok (5, some (.boolean 0))) ∧
    (bytes "null" <+: str → _json_parse_lit ret str = .ok (4, some .null)) ∧
    (¬ bytes "true" <+: str → ¬ bytes "false" <+: str → ¬ bytes "null" <+: str →
      _json_parse_lit ret str = .ok (0, ret)) := by
  have ht := strncmp_eq_prefix (bytes "true") (by decide) str h0
  have hf := strncmp_eq_prefix (bytes "false") (by decide) str h0
  have hn := strncmp_eq_prefix (bytes "null") (by decide) str h0
  refine ⟨?_, ?_, ?_, ?_⟩
  · intro h
    simp [_json_parse_lit, ht, h]
  · intro h
    have h1 : ¬ bytes "true" <+: str := by
      intro h2
      rw [bytes_true] at h2
      rw [bytes_false] at h
      obtain ⟨a, rfl⟩ := h2
      simp at h
    simp [_json_parse_lit, ht, hf, h, h1]
  · intro h
    have h1 : ¬ bytes "true" <+: str := by
      intro h2
      rw [bytes_true] at h2
      rw [bytes_null] at h
      obtain ⟨a, rfl⟩ := h2
      simp at h
    have h3 : ¬ bytes "false" <+: str := by
      intro h2
      rw [bytes_false] at h2
      rw [bytes_null] at h
      obtain ⟨a, rfl⟩ := h2
      simp at h
    simp [_json_parse_lit, ht, hf, hn, h, h1, h3]
  · intro h1 h2 h3
    simp [_json_parse_lit, ht, hf, hn, h1, h2, h3]

/-- Instances of C11 at `true`, `false,`, `null]` and `nul`. -/
theorem C11_literal_keywords_matched_witness :
    _json_parse_lit none (cstr "true") = .ok (4, some (.boolean 1)) ∧
    _json_parse_lit none (cstr "false,") = .ok (5, some (.boolean 0)) ∧
    _json_parse_lit none (cstr "null]") = .ok (4, some .null) ∧
    _json_parse_lit (some .null) (cstr "nul") = .ok (0, some .null) :=
  ⟨(C11_literal_keywords_matched none (cstr "true") (by decide)).1 (by decide),
   (C11_literal_keywords_matched none (cstr "false,") (by decide)).2.1 (by decide),
   (C11_literal_keywords_matched none (cstr "null]") (by decide)).2.2.1 (by decide),
   (C11_literal_keywords_matched (some .null) (cstr "nul") (by decide)).2.2.2
     (by decide) (by decide) (by decide)⟩

/-- C16: for every run `w` of white space, the array parser on `[` w `]` and
the object parser on `{` w `}` (followed by the terminator or by any further
text) succeed with an empty sequence and return `2 + |w|`. -/
theorem C16_empty_containers (n : Nat) (ret : Option json_node) (w rest : List Nat)
    (hw : ∀ x ∈ w, isspace x = true) (h0 : 0 ∈ rest) :
    _json_parse_array (n + 3) ret (91 :: (w ++ 93 :: rest))
      = .ok (((2 + w.length : Nat) : Int), some (.array [])) ∧
    _json_parse_object (n + 2) ret (123 :: (w ++ 125 :: rest))
      = .ok (((2 + w.length : Nat) : Int), some (.object [])) :=
  ⟨array_empty n ret w rest hw h0, object_empty n ret w rest hw⟩

/-- Instance of C16 at `[ ]` and `{ }` with a blank and a line feed between the
brackets. -/
theorem C16_empty_containers_witness :
    _json_parse_array (0 + 3) none (91 :: ([32, 10] ++ 93 :: [0]))
      = .ok (((2 + [32, 10].length : Nat) : Int), some (.array [])) ∧
    _json_parse_object (0 + 2) none (123 :: ([32, 10] ++ 125 :: [0]))
      = .ok (((2 + [32, 10].length : Nat) : Int), some (.object [])) :=
  C16_empty_containers 0 none [32, 10] [0] (by decide) (by decide)

/-- C18: for every input and every initial content `ret` of the output node,
each of the literal, string, number, array and object productions and the
value dispatcher leaves the node as it was when it returns a result `r ≤ 0`;
the node is written only together with a positive result. -/
theorem C18_node_untouched_unless_positive (fuel : Nat) (ret : Option json_node)
    (str : List Nat) (r : Int) (ret1 : Option json_node) (hr : r ≤ 0) :
    (_json_parse_lit ret str = .ok (r, ret1) → ret1 = ret) ∧
    (_json_parse_str ret str = .ok (r, ret1) → ret1 = ret) ∧
    (_json_parse_num ret str = .ok (r, ret1) → ret1 = ret) ∧
    (_json_parse_array fuel ret str = .ok (r, ret1) → ret1 = ret) ∧
    (_json_parse_object fuel ret str = .ok (r, ret1) → ret1 = ret) ∧
    (_json_parse_value fuel ret str = .ok (r, ret1) → ret1 = ret) :=
  ⟨fun h => lit_atomic ret str r ret1 h hr,
   fun h => str_atomic ret str r ret1 h hr,
   fun h => num_atomic ret str r ret1 h hr,
   fun h => array_atomic fuel ret str r ret1 h hr,
   fun h => object_atomic fuel ret str r ret1 h hr,
   fun h => value_atomic fuel ret str r ret1 h hr⟩

/-- Instance of C18 on `{"a":}` with the node holding Null beforehand: the
object parser and the dispatcher return -5 and the node still holds Null. -/
theorem C18_node_untouched_unless_positive_witness :
    (-5 : Int) ≤ 0 ∧
    _json_parse_object 5 (some .null) (cstr "\x7b\"a\":\x7d") = .ok (-5, some .null) ∧
    _json_parse_value 5 (some .null) (cstr "\x7b\"a\":\x7d") = .ok (-5, some .null) ∧
    (some json_node.null = some json_node.null) :=
  ⟨by decide, by rfl, by rfl,
   (C18_node_untouched_unless_positive 5 (some .null) (cstr "\x7b\"a\":\x7d") (-5)
      (some .null) (by decide)).2.2.2.2.2 (by rfl)⟩

/-- C19 (code defect): consumption can leave the input.  The string `"a`, of
length 2, held in a buffer in which the bytes `b`, `"` follow its terminator,
makes the string parser step over the terminator; the dispatcher returns 5. -/
theorem C19_consumption_exceeds_input_length :
    c_string [34, 97, 0, 98, 34, 0] = .ok [34, 97] ∧
    _json_parse_value 2 none [34, 97, 0, 98, 34, 0] = .ok (5, some (.string [97, 98])) :=
  ⟨by rfl, by rfl⟩

/-- C20 (code defect): on every success with returned length `n` the decoded
bytes number at most `n - 2`, but they can outgrow the buffer of
`strlen(body) + 1` bytes.  For the empty body followed, after its terminator,
by the bytes `a`, `b`, `"`, that buffer has one byte and two are written. -/
theorem C20_decoded_bytes_outgrow_buffer :
    c_string [0, 97, 98, 34, 0] = .ok [] ∧
    _json_parse_str none [34, 0, 97, 98, 34, 0] = .ok (5, some (.string [97, 98])) ∧
    (∀ (ret : Option json_node) (str : List Nat) (n : Int) (ret1 : Option json_node),
      _json_parse_str ret str = .ok (n, ret1) → 0 < n →
      ∃ b : List Nat, ret1 = some (.string b) ∧ (b.length : Int) ≤ n - 2) :=
  ⟨by rfl, by rfl, str_written⟩

/-- Instance of the bound of C20 at `"ab"`: length 4, two decoded bytes. -/
theorem C20_decoded_bytes_outgrow_buffer_witness :
    _json_parse_str none (cstr "\"ab\"") = .ok (4, some (.string [97, 98])) ∧
    ∃ b : List Nat, some (json_node.string [97, 98]) = some (.string b) ∧
      (b.length : Int) ≤ 4 - 2 :=
  ⟨by rfl, C20_decoded_bytes_outgrow_buffer.2.2 none (cstr "\"ab\"") 4 _ (by rfl) (by decide)⟩

end SingleFile
